import Mathlib

/-
Verification development for the paper-trading ledger and settlement engine
of the poly-deepseek repository (`simulation.py`, persistence in `storage.py`).

Shallow embedding conventions:
* Python floats for money/prices are modelled as rationals (ℚ).
* `datetime.now().isoformat()` is an opaque timestamp string passed in as `now`.
* Persistence (`save_data`) is modelled by appending the snapshot
  `(balance, bets)` to a write log `store`; one appended entry = one save.
* The market payload fields `outcomes` / `outcomePrices` can arrive either as
  native JSON lists or as JSON-encoded strings; the code decodes them with
  `json.loads` (falling back to leaving them alone on failure) and then only
  uses them when they are lists.  Both the price-update site and the
  resolution site decode the same raw fields in the same way, so the model
  carries the decoded result directly: `some xs` for a (decoded) list,
  `none` for anything that is not a list after decoding.
* `client.get_market` returns a parsed market dict or `None`; it is modelled
  as a function `String → Option Market` (`none` = unavailable/falsy).
* Python truthiness on strings: `if not market_id: continue` skips both a
  missing id and the empty string; `if winning_outcome:` treats an empty
  winning label as no winner.  Both are modelled explicitly.
-/

namespace Sim

/-- Bet status; the source stores the strings "OPEN", "WON", "LOST". -/
inductive Status where
  | OPEN : Status
  | WON : Status
  | LOST : Status
  deriving DecidableEq

/-- One bet record, mirroring the dict literal built in
`BettingSimulator.place_bet` (simulation.py lines 42-55). -/
structure Bet where
  id : Nat
  date : String
  event : String
  market : String
  market_id : Option String
  outcome : String
  amount : ℚ
  price : ℚ
  current_price : ℚ
  potential_payout : ℚ
  status : Status
  result_checked_at : Option String
  deriving DecidableEq

/-- Simulator state: `balance` and `bets` as in `BettingSimulator`, plus a
write log `store` recording every snapshot written by `save_data`. -/
structure SimState where
  balance : ℚ
  bets : List Bet
  store : List (ℚ × List Bet)
  deriving DecidableEq

/-- Fresh-state defaults from `BettingSimulator.__init__` / the storage
backends' default snapshot: balance 1000.0 and no bets. -/
def initState : SimState :=
  { balance := 1000, bets := [], store := [] }

/-- `save_data`: persist the whole snapshot (balance + bets).  Modelled as
appending the snapshot to the write log. -/
def save_data (s : SimState) : SimState :=
  { s with store := s.store ++ [(s.balance, s.bets)] }

/-- `BettingSimulator.place_bet` (simulation.py lines 37-58).
Returns the new state together with the `(success, message)` pair. -/
def place_bet (s : SimState) (market_question outcome : String)
    (amount price : ℚ) (event_title : String) (market_id : Option String)
    (now : String) : SimState × Bool × String :=
  if s.balance < amount then
    (s, false, "Insufficient funds")
  else
    let bet : Bet :=
      { id := s.bets.length + 1
        date := now
        event := event_title
        market := market_question
        market_id := market_id
        outcome := outcome
        amount := amount
        price := price
        current_price := price
        potential_payout := if 0 < price then amount / price else 0
        status := Status.OPEN
        result_checked_at := none }
    let s1 : SimState :=
      { balance := s.balance - amount, bets := s.bets ++ [bet], store := s.store }
    (save_data s1, true, "Bet placed successfully")

/-- Market details as consumed by `update_results`: the decoded
`outcomes` / `outcomePrices` fields (`none` when the raw field is absent or
does not decode to a list), plus the `closed` flag and the `resolvedBy`
authority (`none` models an absent/falsy value). -/
structure Market where
  outcomes : Option (List String)
  outcomePrices : Option (List ℚ)
  closed : Bool
  resolvedBy : Option String

/-- Price mark-to-market step (simulation.py lines 95-104): find the bet's
outcome in the label list (`list.index`), read the paired price if the index
is in range, and update `current_price` only when it actually changed,
counting 1 mutation in that case. -/
def priceUpdate (outs : List String) (prices : List ℚ) (b : Bet) : Bet × Nat :=
  match List.findIdx? (fun s => s == b.outcome) outs with
  | none => (b, 0)
  | some idx =>
    match prices[idx]? with
    | none => (b, 0)
    | some newPrice =>
      if b.current_price = newPrice then (b, 0)
      else ({ b with current_price := newPrice }, 1)

/-- The price-update step guarded by the `isinstance(..., list)` checks:
it runs only when both decoded fields are lists. -/
def markPrice (m : Market) (b : Bet) : Bet × Nat :=
  match m.outcomePrices, m.outcomes with
  | some prices, some outs => priceUpdate outs prices b
  | _, _ => (b, 0)

/-- `market.get("closed") or market.get("resolvedBy")` (line 107). -/
def marketResolved (m : Market) : Bool :=
  m.closed || m.resolvedBy.isSome

/-- The winning-outcome heuristic (lines 133-138): the first outcome whose
price is >= 0.99.  An index beyond the label list is modelled as no winner. -/
def marketWinner (m : Market) : Option String :=
  match m.outcomePrices, m.outcomes with
  | some prices, some outs =>
    match List.findIdx? (fun p => decide ((99 : ℚ)/100 ≤ p)) prices with
    | some i => outs[i]?
    | none => none
  | _, _ => none

/-- Combined resolution guard: the market must be closed/resolved, a winner
must be found, and `if winning_outcome:` rejects an empty label (Python
string truthiness). -/
def winnerOf (m : Market) : Option String :=
  if marketResolved m then
    match marketWinner m with
    | some w => if w = "" then none else some w
    | none => none
  else none

/-- Settlement step (lines 140-148): when a winner is determined, stamp
`result_checked_at`, transition to WON (crediting `potential_payout`) or
LOST, and count 1 mutation.  Returns (bet, balance credit, mutation count). -/
def settleBet (m : Market) (now : String) (b : Bet) : Bet × ℚ × Nat :=
  match winnerOf m with
  | none => (b, 0, 0)
  | some w =>
    if b.outcome = w then
      ({ b with result_checked_at := some now, status := Status.WON },
       b.potential_payout, 1)
    else
      ({ b with result_checked_at := some now, status := Status.LOST }, 0, 1)

/-- One iteration of the `for bet in self.bets` loop body of
`update_results` (lines 69-148) on a single bet: skip non-OPEN bets, skip a
missing/empty `market_id`, skip an unavailable market; otherwise run the
price update and then the resolution check.
Returns (new bet, balance credit, mutation count). -/
def stepBet (lookup : String → Option Market) (now : String) (b : Bet) :
    Bet × ℚ × Nat :=
  if b.status = Status.OPEN then
    match b.market_id with
    | none => (b, 0, 0)
    | some mid =>
      if mid = "" then (b, 0, 0)
      else
        match lookup mid with
        | none => (b, 0, 0)
        | some m =>
          let pu := markPrice m b
          let se := settleBet m now pu.1
          (se.1, se.2.1, pu.2 + se.2.2)
  else (b, 0, 0)

/-- The full loop of `update_results`: process every bet in order,
accumulating balance credits and the mutation count. -/
def runBets (lookup : String → Option Market) (now : String) :
    List Bet → List Bet × ℚ × Nat
  | [] => ([], 0, 0)
  | b :: rest =>
    let r := stepBet lookup now b
    let rs := runBets lookup now rest
    (r.1 :: rs.1, r.2.1 + rs.2.1, r.2.2 + rs.2.2)

/-- `BettingSimulator.update_results` (lines 63-152): run the loop, apply
the balance credits, and save the snapshot once iff the mutation count is
positive.  Returns the new state and the mutation count. -/
def update_results (lookup : String → Option Market) (now : String)
    (s : SimState) : SimState × Nat :=
  let r := runBets lookup now s.bets
  ({ balance := s.balance + r.2.1
     bets := r.1
     store :=
       if 0 < r.2.2 then s.store ++ [(s.balance + r.2.1, r.1)] else s.store },
   r.2.2)

/-- JSON-shaped values appearing in a persisted bet record. -/
inductive JVal where
  | jnum : ℚ → JVal
  | jstr : String → JVal
  | jstatus : Status → JVal
  | jnull : JVal
  deriving DecidableEq

/-- An optional string serializes to a string or to null. -/
def jopt : Option String → JVal
  | none => JVal.jnull
  | some s => JVal.jstr s

/-- The key/value pairs of the persisted bet record, mirroring the dict
literal of `place_bet` (simulation.py lines 42-55) key for key, in order. -/
def betRecord (b : Bet) : List (String × JVal) :=
  [("id", JVal.jnum (b.id : ℚ)),
   ("date", JVal.jstr b.date),
   ("event", JVal.jstr b.event),
   ("market", JVal.jstr b.market),
   ("market_id", jopt b.market_id),
   ("outcome", JVal.jstr b.outcome),
   ("amount", JVal.jnum b.amount),
   ("price", JVal.jnum b.price),
   ("current_price", JVal.jnum b.current_price),
   ("potential_payout", JVal.jnum b.potential_payout),
   ("status", JVal.jstatus b.status),
   ("result_checked_at", jopt b.result_checked_at)]

/-- The keys of the persisted bet record. -/
def betRecordKeys (b : Bet) : List String :=
  (betRecord b).map Prod.fst

/-- Modelled from the spec: `add_funds` is described by the specification
(§4.2 and Scenario E: reject `amount <= 0` with
`(false, "Amount must be positive.")`, otherwise credit the balance and
persist) but the function is absent from the provided `simulation.py`. -/
def add_funds (s : SimState) (amount : ℚ) : SimState × Bool × String :=
  if amount ≤ 0 then
    (s, false, "Amount must be positive.")
  else
    let s1 : SimState := { s with balance := s.balance + amount }
    (save_data s1, true, "Funds added successfully")

/-! Concrete fixtures for the spec's scenarios (Scenario A / C data:
a bet of 100.0 on "Yes" at entry price 0.40, payout 250.0, balance 900.0,
and market "m1" reporting outcomes ["Yes","No"], prices [1.0, 0.0],
closed = true). -/

/-- The open Scenario A bet. -/
def cBet : Bet :=
  { id := 1
    date := "d0"
    event := "Event X"
    market := "Will X win?"
    market_id := some "m1"
    outcome := "Yes"
    amount := 100
    price := 2/5
    current_price := 2/5
    potential_payout := 250
    status := Status.OPEN
    result_checked_at := none }

/-- Ledger state after Scenario A: balance 900.0, one open bet. -/
def cState : SimState :=
  { balance := 900, bets := [cBet], store := [] }

/-- The resolved upstream market of Scenario C. -/
def cMarket : Market :=
  { outcomes := some ["Yes", "No"]
    outcomePrices := some [1, 0]
    closed := true
    resolvedBy := none }

/-- Market lookup knowing only market "m1". -/
def cLookup : String → Option Market :=
  fun mid => if mid = "m1" then some cMarket else none

/-- The Scenario A bet after the Scenario C reconciliation pass. -/
def cBetWon : Bet :=
  { cBet with
    current_price := 1
    result_checked_at := some "t1"
    status := Status.WON }

/-- Evaluation of the Scenario C reconciliation pass: the bet is settled as
WON, the balance rises to 1150.0, one snapshot is saved, and the mutation
count is 2 (the price change 0.40 → 1.0 and the resolution each count 1). -/
theorem c_eval :
    update_results cLookup "t1" cState =
      ({ balance := 1150, bets := [cBetWon],
         store := [(1150, [cBetWon])] }, 2) := by
  have hstep : stepBet cLookup "t1" cBet = (cBetWon, 250, 2) := by
    norm_num [stepBet, cBet, cLookup, cMarket, markPrice, priceUpdate,
      settleBet, winnerOf, marketWinner, marketResolved, List.findIdx?,
      cBetWon]
    simp +decide
  norm_num [update_results, cState, runBets, hstep, cBetWon]

/-! General lemmas about the per-bet reconciliation step. -/

/-- The price update only ever touches `current_price`. -/
theorem priceUpdate_shape (outs : List String) (prices : List ℚ) (b : Bet) :
    ∃ cp, (priceUpdate outs prices b).1 = { b with current_price := cp } := by
  cases hidx : List.findIdx? (fun s => s == b.outcome) outs with
  | none => exact ⟨b.current_price, by simp [priceUpdate, hidx]⟩
  | some idx =>
    cases hp : prices[idx]? with
    | none => exact ⟨b.current_price, by simp [priceUpdate, hidx, hp]⟩
    | some p =>
      by_cases hcp : b.current_price = p
      · refine ⟨p, ?_⟩
        have h1 : priceUpdate outs prices b = (b, 0) := by
          simp [priceUpdate, hidx, hp, hcp]
        rw [h1, ← hcp]
      · exact ⟨p, by simp [priceUpdate, hidx, hp, hcp]⟩

/-- Running the price update twice changes nothing the second time and
counts zero mutations. -/
theorem priceUpdate_fix (outs : List String) (prices : List ℚ) (b : Bet) :
    priceUpdate outs prices (priceUpdate outs prices b).1 =
      ((priceUpdate outs prices b).1, 0) := by
  cases hidx : List.findIdx? (fun s => s == b.outcome) outs with
  | none => simp [priceUpdate, hidx]
  | some idx =>
    cases hp : prices[idx]? with
    | none => simp [priceUpdate, hidx, hp]
    | some p =>
      by_cases hcp : b.current_price = p
      · simp [priceUpdate, hidx, hp, hcp]
      · simp [priceUpdate, hidx, hp, hcp]

/-- The guarded price update only ever touches `current_price`. -/
theorem markPrice_shape (m : Market) (b : Bet) :
    ∃ cp, (markPrice m b).1 = { b with current_price := cp } := by
  cases hop : m.outcomePrices with
  | none => exact ⟨b.current_price, by simp [markPrice, hop]⟩
  | some prices =>
    cases hos : m.outcomes with
    | none => exact ⟨b.current_price, by simp [markPrice, hop, hos]⟩
    | some outs =>
      obtain ⟨cp, hcp⟩ := priceUpdate_shape outs prices b
      exact ⟨cp, by simp [markPrice, hop, hos, hcp]⟩

/-- Running the guarded price update twice changes nothing the second time. -/
theorem markPrice_fix (m : Market) (b : Bet) :
    markPrice m (markPrice m b).1 = ((markPrice m b).1, 0) := by
  cases hop : m.outcomePrices with
  | none => simp [markPrice, hop]
  | some prices =>
    cases hos : m.outcomes with
    | none => simp [markPrice, hop, hos]
    | some outs => simp [markPrice, hop, hos, priceUpdate_fix]

/-- When no winner is determined the settlement step is a no-op. -/
theorem settleBet_none (m : Market) (now : String) (b : Bet)
    (h : winnerOf m = none) : settleBet m now b = (b, 0, 0) := by
  simp [settleBet, h]

/-- When a winner is determined the settled bet is terminal. -/
theorem settleBet_some_terminal (m : Market) (now : String) (b : Bet) (w : String)
    (h : winnerOf m = some w) :
    (settleBet m now b).1.status = Status.WON ∨
    (settleBet m now b).1.status = Status.LOST := by
  by_cases hb : b.outcome = w
  · left; simp [settleBet, h, hb]
  · right; simp [settleBet, h, hb]

/-- The settlement step only ever touches `status` and `result_checked_at`. -/
theorem settleBet_shape (m : Market) (now : String) (b : Bet) :
    ∃ st ra, (settleBet m now b).1 =
      { b with status := st, result_checked_at := ra } := by
  unfold settleBet
  split
  · exact ⟨b.status, b.result_checked_at, rfl⟩
  split
  · exact ⟨Status.WON, some now, rfl⟩
  · exact ⟨Status.LOST, some now, rfl⟩

/-- A bet that is already terminal is left entirely unchanged by the loop
body, with no balance credit and no mutation counted. -/
theorem stepBet_terminal (lookup : String → Option Market) (now : String)
    (b : Bet) (h : ¬ b.status = Status.OPEN) :
    stepBet lookup now b = (b, 0, 0) := by
  simp [stepBet, h]

/-- The loop body only ever touches `current_price`, `status` and
`result_checked_at`; every other bet field is preserved. -/
theorem stepBet_shape (lookup : String → Option Market) (now : String)
    (b : Bet) :
    ∃ cp st ra, (stepBet lookup now b).1 =
      { b with current_price := cp, status := st, result_checked_at := ra } := by
  by_cases hb : b.status = Status.OPEN
  · cases hmid : b.market_id with
    | none =>
      have h1 : stepBet lookup now b = (b, 0, 0) := by simp [stepBet, hb, hmid]
      exact ⟨b.current_price, b.status, b.result_checked_at, by rw [h1, ← hmid]⟩
    | some mid =>
      by_cases hme : mid = ""
      · have h1 : stepBet lookup now b = (b, 0, 0) := by
          simp [stepBet, hb, hmid, hme]
        exact ⟨b.current_price, b.status, b.result_checked_at, by rw [h1, ← hmid]⟩
      · cases hlk : lookup mid with
        | none =>
          have h1 : stepBet lookup now b = (b, 0, 0) := by
            simp [stepBet, hb, hmid, hme, hlk]
          exact ⟨b.current_price, b.status, b.result_checked_at, by rw [h1, ← hmid]⟩
        | some m =>
          obtain ⟨cp, hcp⟩ := markPrice_shape m b
          obtain ⟨st, ra, hse⟩ := settleBet_shape m now (markPrice m b).1
          refine ⟨cp, st, ra, ?_⟩
          have h1 : (stepBet lookup now b).1 = (settleBet m now (markPrice m b).1).1 := by
            simp [stepBet, hb, hmid, hme, hlk]
          rw [h1, hse, hcp]
          simp [hmid]
  · exact ⟨b.current_price, b.status, b.result_checked_at,
      by rw [stepBet_terminal lookup now b hb]⟩

/-- Applying the loop body to its own output changes nothing: the second
application returns the bet unchanged, no credit and no mutation. -/
theorem stepBet_fix (lookup : String → Option Market) (n1 n2 : String)
    (b : Bet) :
    stepBet lookup n2 (stepBet lookup n1 b).1 = ((stepBet lookup n1 b).1, 0, 0) := by
  by_cases hb : b.status = Status.OPEN
  · cases hmid : b.market_id with
    | none =>
      have h1 : stepBet lookup n1 b = (b, 0, 0) := by simp [stepBet, hb, hmid]
      rw [h1]
      simp [stepBet, hb, hmid]
    | some mid =>
      by_cases hme : mid = ""
      · have h1 : stepBet lookup n1 b = (b, 0, 0) := by
          simp [stepBet, hb, hmid, hme]
        rw [h1]
        simp [stepBet, hb, hmid, hme]
      · cases hlk : lookup mid with
        | none =>
          have h1 : stepBet lookup n1 b = (b, 0, 0) := by
            simp [stepBet, hb, hmid, hme, hlk]
          rw [h1]
          simp [stepBet, hb, hmid, hme, hlk]
        | some m =>
          have h1 : (stepBet lookup n1 b).1 = (settleBet m n1 (markPrice m b).1).1 := by
            simp [stepBet, hb, hmid, hme, hlk]
          cases hw : winnerOf m with
          | some w =>
            have hterm : ¬ (stepBet lookup n1 b).1.status = Status.OPEN := by
              rw [h1]
              rcases settleBet_some_terminal m n1 (markPrice m b).1 w hw with h | h <;>
                simp [h]
            exact stepBet_terminal lookup n2 _ hterm
          | none =>
            obtain ⟨cp, hcp⟩ := markPrice_shape m b
            have hse : settleBet m n1 (markPrice m b).1 = ((markPrice m b).1, 0, 0) :=
              settleBet_none m n1 _ hw
            have hb2 : (stepBet lookup n1 b).1 = (markPrice m b).1 := by
              rw [h1, hse]
            have hb1s : (markPrice m b).1.status = Status.OPEN := by
              rw [hcp]; exact hb
            have hb1m : (markPrice m b).1.market_id = some mid := by
              rw [hcp]; exact hmid
            rw [hb2]
            have h2 : stepBet lookup n2 (markPrice m b).1 =
                ((settleBet m n2 (markPrice m (markPrice m b).1).1).1,
                 (settleBet m n2 (markPrice m (markPrice m b).1).1).2.1,
                 (markPrice m (markPrice m b).1).2 +
                   (settleBet m n2 (markPrice m (markPrice m b).1).1).2.2) := by
              simp [stepBet, hb1s, hb1m, hme, hlk]
            rw [h2, markPrice_fix]
            rw [settleBet_none m n2 _ hw]
            rfl
  · rw [stepBet_terminal lookup n1 b hb]
    exact stepBet_terminal lookup n2 b hb

/-! Lemmas about the whole reconciliation loop. -/

/-- The loop preserves the number of bets. -/
theorem runBets_length (lookup : String → Option Market) (now : String)
    (bs : List Bet) : (runBets lookup now bs).1.length = bs.length := by
  induction bs with
  | nil => rfl
  | cons b rest ih => simp [runBets, ih]

/-- The i-th bet after the loop is the stepped i-th input bet. -/
theorem runBets_getElem (lookup : String → Option Market) (now : String)
    (bs : List Bet) (i : Nat) :
    (runBets lookup now bs).1[i]? =
      (bs[i]?).map (fun b => (stepBet lookup now b).1) := by
  induction bs generalizing i with
  | nil => simp [runBets]
  | cons b rest ih =>
    cases i with
    | zero => simp [runBets]
    | succ n => simp [runBets, ih]

/-- Running the loop on its own output mutates nothing and counts zero. -/
theorem runBets_fix (lookup : String → Option Market) (n1 n2 : String)
    (bs : List Bet) :
    runBets lookup n2 (runBets lookup n1 bs).1 =
      ((runBets lookup n1 bs).1, 0, 0) := by
  induction bs with
  | nil => rfl
  | cons b rest ih => simp [runBets, stepBet_fix, ih]

/-! Claim theorems. -/

/-- C1: for every call to `place_bet`: if `amount <= balance` before the
call, the call succeeds, the balance after the call equals
`balance_before - amount`, and one new bet with status OPEN is appended;
otherwise the call returns `(false, "Insufficient funds")` and the balance
and the bet list are unchanged. -/
theorem C1_place_bet_spec (s : SimState) (q o e : String)
    (mid : Option String) (amount price : ℚ) (now : String) :
    (amount ≤ s.balance →
      (place_bet s q o amount price e mid now).2.1 = true ∧
      (place_bet s q o amount price e mid now).1.balance = s.balance - amount ∧
      ∃ b : Bet, b.status = Status.OPEN ∧
        (place_bet s q o amount price e mid now).1.bets = s.bets ++ [b]) ∧
    (s.balance < amount →
      (place_bet s q o amount price e mid now).2.1 = false ∧
      (place_bet s q o amount price e mid now).2.2 = "Insufficient funds" ∧
      (place_bet s q o amount price e mid now).1.balance = s.balance ∧
      (place_bet s q o amount price e mid now).1.bets = s.bets) := by
  constructor
  · intro h
    have hnl : ¬ s.balance < amount := not_lt.mpr h
    refine ⟨by simp [place_bet, save_data, hnl],
            by simp [place_bet, save_data, hnl], ?_⟩
    refine ⟨{ id := s.bets.length + 1
              date := now
              event := e
              market := q
              market_id := mid
              outcome := o
              amount := amount
              price := price
              current_price := price
              potential_payout := if 0 < price then amount / price else 0
              status := Status.OPEN
              result_checked_at := none }, rfl, ?_⟩
    simp [place_bet, save_data, hnl]
  · intro h
    refine ⟨?_, ?_, ?_, ?_⟩ <;> simp [place_bet, h]

/-- Witness for C1: a successful and a rejected concrete placement. -/
theorem C1_place_bet_spec_witness :
    (place_bet initState "Will X win?" "Yes" 100 (2/5) "Event X" (some "m1")
      "d0").2.1 = true ∧
    (place_bet initState "q2" "No" 2000 (1/2) "E2" none "d1").2.1 = false := by
  constructor
  · exact ((C1_place_bet_spec initState "Will X win?" "Yes" "Event X"
      (some "m1") 100 (2/5) "d0").1 (by norm_num [initState])).1
  · exact ((C1_place_bet_spec initState "q2" "No" "E2" none 2000 (1/2)
      "d1").2 (by norm_num [initState])).1

/-- C2 counterexample: in the Scenario C reconciliation the mutated count
returned is 2, not 1 as claimed (the price change 0.40 → 1.0 and the
resolution are each counted). -/
theorem C2_counterexample :
    (update_results cLookup "t1" cState).2 = 2 ∧
    ¬ (update_results cLookup "t1" cState).2 = 1 := by
  rw [c_eval]
  exact ⟨rfl, by decide⟩

/-- C2 (amended): the Scenario C pass transitions the bet to WON, sets
`result_checked_at`, raises the balance from 900.0 to 1150.0, and returns a
mutated count of 2. -/
theorem C2_scenario_amended :
    (update_results cLookup "t1" cState).1.balance = 1150 ∧
    (update_results cLookup "t1" cState).1.bets = [cBetWon] ∧
    cBetWon.status = Status.WON ∧
    cBetWon.result_checked_at = some "t1" ∧
    (update_results cLookup "t1" cState).2 = 2 := by
  rw [c_eval]
  exact ⟨rfl, rfl, rfl, rfl, rfl⟩

/-- C3: `add_funds` rejects every `amount <= 0` with
`(false, "Amount must be positive.")` leaving the state unchanged, and for
every `amount > 0` credits the balance and persists the snapshot. -/
theorem C3_add_funds_spec (s : SimState) (amount : ℚ) :
    (amount ≤ 0 →
      add_funds s amount = (s, false, "Amount must be positive.")) ∧
    (0 < amount →
      (add_funds s amount).2.1 = true ∧
      (add_funds s amount).1.balance = s.balance + amount ∧
      (add_funds s amount).1.bets = s.bets ∧
      (add_funds s amount).1.store =
        s.store ++ [(s.balance + amount, s.bets)]) := by
  constructor
  · intro h
    simp [add_funds, h]
  · intro h
    have hn : ¬ amount ≤ 0 := not_le.mpr h
    refine ⟨?_, ?_, ?_, ?_⟩ <;> simp [add_funds, save_data, hn]

/-- Witness for C3: Scenario E (`add_funds(-5.0)` fails, balance
unchanged) and a successful credit. -/
theorem C3_add_funds_spec_witness :
    add_funds initState (-5) = (initState, false, "Amount must be positive.") ∧
    (add_funds initState 5).1.balance = 1005 := by
  constructor
  · exact (C3_add_funds_spec initState (-5)).1 (by norm_num)
  · have h := ((C3_add_funds_spec initState 5).2 (by norm_num)).2.1
    rw [h]
    norm_num [initState]

/-- C4 counterexample: `place_bet` with the non-positive amount -5.0 is not
rejected: it succeeds, credits the balance to 1005.0 and appends a bet. -/
theorem C4_counterexample :
    (place_bet initState "q" "Yes" (-5) (1/2) "E" none "d0").2.1 = true ∧
    (place_bet initState "q" "Yes" (-5) (1/2) "E" none "d0").1.balance = 1005 ∧
    ¬ (place_bet initState "q" "Yes" (-5) (1/2) "E" none "d0").1.bets = [] := by
  refine ⟨?_, ?_, ?_⟩ <;> norm_num [place_bet, save_data, initState]

/-- C4 (amended): `place_bet` validates only `amount <= balance`; a
non-positive amount that passes that check is accepted and mutates the
state, debiting `balance` by the (non-positive) amount and appending a
bet. -/
theorem C4_nonpositive_accepted (s : SimState) (q o e : String)
    (mid : Option String) (amount price : ℚ) (now : String)
    (_hnp : amount ≤ 0) (hle : amount ≤ s.balance) :
    (place_bet s q o amount price e mid now).2.1 = true ∧
    (place_bet s q o amount price e mid now).1.balance = s.balance - amount ∧
    (place_bet s q o amount price e mid now).1.bets.length =
      s.bets.length + 1 := by
  have hnl : ¬ s.balance < amount := not_lt.mpr hle
  refine ⟨?_, ?_, ?_⟩ <;> simp [place_bet, save_data, hnl]

/-- Witness for C4 (amended) at amount -5.0. -/
theorem C4_nonpositive_accepted_witness :
    (place_bet initState "q" "Yes" (-5) (1/2) "E" none "d0").2.1 = true ∧
    (place_bet initState "q" "Yes" (-5) (1/2) "E" none "d0").1.balance =
      initState.balance - (-5) := by
  have h := C4_nonpositive_accepted initState "q" "Yes" "E" none (-5) (1/2)
    "d0" (by norm_num) (by norm_num [initState])
  exact ⟨h.1, h.2.1⟩

/-- C5: in every `update_results` pass, a bet whose status is already
terminal (WON or LOST) is left entirely unchanged, and a bet whose status
changes was OPEN before the pass and becomes WON or LOST — so the status
transitions at most once, only OPEN → WON or OPEN → LOST, never in reverse
and never out of a terminal state. -/
theorem C5_status_monotone (lookup : String → Option Market) (now : String)
    (s : SimState) (i : Nat) (b b1 : Bet)
    (hb : s.bets[i]? = some b)
    (hb1 : (update_results lookup now s).1.bets[i]? = some b1) :
    (¬ b.status = Status.OPEN → b1 = b) ∧
    (¬ b1.status = b.status →
      b.status = Status.OPEN ∧
      (b1.status = Status.WON ∨ b1.status = Status.LOST)) := by
  have hbets : (update_results lookup now s).1.bets =
      (runBets lookup now s.bets).1 := rfl
  rw [hbets, runBets_getElem, hb] at hb1
  have hb1e : b1 = (stepBet lookup now b).1 := by
    simpa using hb1.symm
  constructor
  · intro h
    rw [hb1e, stepBet_terminal lookup now b h]
  · intro hne
    have h : b.status = Status.OPEN := by
      by_contra h
      exact hne (by rw [hb1e, stepBet_terminal lookup now b h])
    refine ⟨h, ?_⟩
    cases hst : b1.status with
    | OPEN => exact absurd (by rw [hst, h]) hne
    | WON => exact Or.inl rfl
    | LOST => exact Or.inr rfl

/-- Fixture: the Scenario A bet already settled as LOST. -/
def cBetLost : Bet :=
  { cBet with status := Status.LOST }

/-- Fixture: a ledger holding only the terminal bet. -/
def cStateTerm : SimState :=
  { balance := 900, bets := [cBetLost], store := [] }

/-- Witness for C5: a reconciliation pass over a terminal bet leaves it
unchanged. -/
theorem C5_status_monotone_witness :
    (¬ cBetLost.status = Status.OPEN → cBetLost = cBetLost) ∧
    (¬ cBetLost.status = cBetLost.status →
      cBetLost.status = Status.OPEN ∧
      (cBetLost.status = Status.WON ∨ cBetLost.status = Status.LOST)) := by
  have hstep : stepBet cLookup "t2" cBetLost = (cBetLost, 0, 0) :=
    stepBet_terminal cLookup "t2" cBetLost (by decide)
  have heval : (update_results cLookup "t2" cStateTerm).1.bets[0]? =
      some cBetLost := by
    show ((runBets cLookup "t2" cStateTerm.bets).1)[0]? = some cBetLost
    simp [cStateTerm, runBets, hstep]
  exact C5_status_monotone cLookup "t2" cStateTerm 0 cBetLost cBetLost rfl heval

/-- C6: for every ledger state, running `update_results` twice against the
same market-lookup data mutates no bet, no balance and no storage on the
second call, and the second call returns 0. -/
theorem C6_update_results_idempotent (lookup : String → Option Market)
    (n1 n2 : String) (s : SimState) :
    update_results lookup n2 (update_results lookup n1 s).1 =
      ((update_results lookup n1 s).1, 0) := by
  unfold update_results
  simp [runBets_fix]

/-- C7: a bet created by `place_bet` with positive price has
`potential_payout = amount / price`, and no `update_results` pass ever
changes a bet's `potential_payout`. -/
theorem C7_payout_fixed (s : SimState) (q o e : String) (mid : Option String)
    (amount price : ℚ) (now : String) (lookup : String → Option Market)
    (rnow : String) (i : Nat) (b b1 : Bet)
    (hprice : 0 < price) (hle : amount ≤ s.balance) :
    (∃ nb : Bet,
      (place_bet s q o amount price e mid now).1.bets = s.bets ++ [nb] ∧
      nb.potential_payout = amount / price) ∧
    (s.bets[i]? = some b →
      (update_results lookup rnow s).1.bets[i]? = some b1 →
      b1.potential_payout = b.potential_payout) := by
  constructor
  · have hnl : ¬ s.balance < amount := not_lt.mpr hle
    refine ⟨{ id := s.bets.length + 1
              date := now
              event := e
              market := q
              market_id := mid
              outcome := o
              amount := amount
              price := price
              current_price := price
              potential_payout := if 0 < price then amount / price else 0
              status := Status.OPEN
              result_checked_at := none }, ?_, ?_⟩
    · simp [place_bet, save_data, hnl]
    · simp [hprice]
  · intro hb hb1
    have hbets : (update_results lookup rnow s).1.bets =
        (runBets lookup rnow s.bets).1 := rfl
    rw [hbets, runBets_getElem, hb] at hb1
    have hb1e : b1 = (stepBet lookup rnow b).1 := by
      simpa using hb1.symm
    obtain ⟨cp, st, ra, hsh⟩ := stepBet_shape lookup rnow b
    rw [hb1e, hsh]

/-- Witness for C7 at the Scenario A placement. -/
theorem C7_payout_fixed_witness :
    ∃ nb : Bet,
      (place_bet initState "Will X win?" "Yes" 100 (2/5) "Event X"
        (some "m1") "d0").1.bets = initState.bets ++ [nb] ∧
      nb.potential_payout = 100 / (2/5 : ℚ) := by
  exact (C7_payout_fixed initState "Will X win?" "Yes" "Event X" (some "m1")
    100 (2/5) "d0" cLookup "t1" 0 cBet cBet (by norm_num)
    (by norm_num [initState])).1

/-- C8: an `update_results` pass persists the snapshot at most once: when
the mutated count is positive the store grows by exactly the one final
snapshot; when the count is 0 the store is untouched. -/
theorem C8_single_save (lookup : String → Option Market) (now : String)
    (s : SimState) :
    (0 < (update_results lookup now s).2 →
      (update_results lookup now s).1.store =
        s.store ++ [((update_results lookup now s).1.balance,
                     (update_results lookup now s).1.bets)]) ∧
    ((update_results lookup now s).2 = 0 →
      (update_results lookup now s).1.store = s.store) := by
  have hst : (update_results lookup now s).1.store =
      if 0 < (runBets lookup now s.bets).2.2 then
        s.store ++ [(s.balance + (runBets lookup now s.bets).2.1,
                     (runBets lookup now s.bets).1)]
      else s.store := rfl
  constructor
  · intro h
    have h2 : 0 < (runBets lookup now s.bets).2.2 := h
    rw [hst, if_pos h2]
    rfl
  · intro h
    have h2 : (runBets lookup now s.bets).2.2 = 0 := h
    rw [hst, h2]
    simp

/-- Fixture: a market lookup that always fails. -/
def emptyLookup : String → Option Market := fun _ => none

/-- Witness for C8: the Scenario C pass saves exactly once; a pass that
mutates nothing does not write. -/
theorem C8_single_save_witness :
    (update_results cLookup "t1" cState).1.store =
      cState.store ++ [((update_results cLookup "t1" cState).1.balance,
                        (update_results cLookup "t1" cState).1.bets)] ∧
    (update_results emptyLookup "t1" initState).1.store = initState.store := by
  constructor
  · exact (C8_single_save cLookup "t1" cState).1 (by rw [c_eval]; decide)
  · exact (C8_single_save emptyLookup "t1" initState).2 rfl

/-- C9 counterexample: the record of the bet created by the Scenario A
placement has no "category" key (and `place_bet` takes no category
argument). -/
theorem C9_counterexample :
    (place_bet initState "Will X win?" "Yes" 100 (2/5) "Event X" (some "m1")
      "d0").1.bets = [cBet] ∧
    ¬ "category" ∈ betRecordKeys cBet := by
  constructor
  · norm_num [place_bet, save_data, initState, cBet]
  · decide

/-- C9 (amended): every bet record created by `place_bet` contains exactly
the fields id, date, event, market, market_id, outcome, amount, price,
current_price, potential_payout, status and result_checked_at — and no
category field; `place_bet` takes no category argument. -/
theorem C9_bet_record_fields (s : SimState) (q o e : String)
    (mid : Option String) (amount price : ℚ) (now : String)
    (hle : amount ≤ s.balance) :
    ∃ nb : Bet,
      (place_bet s q o amount price e mid now).1.bets = s.bets ++ [nb] ∧
      betRecordKeys nb =
        ["id", "date", "event", "market", "market_id", "outcome", "amount",
         "price", "current_price", "potential_payout", "status",
         "result_checked_at"] ∧
      ¬ "category" ∈ betRecordKeys nb := by
  have hnl : ¬ s.balance < amount := not_lt.mpr hle
  refine ⟨{ id := s.bets.length + 1
            date := now
            event := e
            market := q
            market_id := mid
            outcome := o
            amount := amount
            price := price
            current_price := price
            potential_payout := if 0 < price then amount / price else 0
            status := Status.OPEN
            result_checked_at := none }, ?_, rfl,
          by simp [betRecordKeys, betRecord]⟩
  simp [place_bet, save_data, hnl]

/-- Witness for C9 (amended) at the Scenario A placement. -/
theorem C9_bet_record_fields_witness :
    ∃ nb : Bet,
      (place_bet initState "Will X win?" "Yes" 100 (2/5) "Event X"
        (some "m1") "d0").1.bets = initState.bets ++ [nb] ∧
      betRecordKeys nb =
        ["id", "date", "event", "market", "market_id", "outcome", "amount",
         "price", "current_price", "potential_payout", "status",
         "result_checked_at"] ∧
      ¬ "category" ∈ betRecordKeys nb := by
  exact C9_bet_record_fields initState "Will X win?" "Yes" "Event X"
    (some "m1") 100 (2/5) "d0" (by norm_num [initState])

/-- C10: `place_bet` with price 0 and `amount <= balance` does not divide:
it succeeds and the created bet's `potential_payout` is 0. -/
theorem C10_zero_price (s : SimState) (q o e : String) (mid : Option String)
    (amount : ℚ) (now : String) (hle : amount ≤ s.balance) :
    (place_bet s q o amount 0 e mid now).2.1 = true ∧
    ∃ nb : Bet,
      (place_bet s q o amount 0 e mid now).1.bets = s.bets ++ [nb] ∧
      nb.potential_payout = 0 := by
  have hnl : ¬ s.balance < amount := not_lt.mpr hle
  refine ⟨by simp [place_bet, save_data, hnl],
          { id := s.bets.length + 1
            date := now
            event := e
            market := q
            market_id := mid
            outcome := o
            amount := amount
            price := 0
            current_price := 0
            potential_payout := if (0:ℚ) < 0 then amount / 0 else 0
            status := Status.OPEN
            result_checked_at := none }, ?_, ?_⟩
  · simp [place_bet, save_data, hnl]
  · simp

/-- Witness for C10: a 100.0 bet at price 0 on a fresh ledger. -/
theorem C10_zero_price_witness :
    (place_bet initState "q" "Yes" 100 0 "E" none "d0").2.1 = true := by
  exact (C10_zero_price initState "q" "Yes" "E" none 100 "d0"
    (by norm_num [initState])).1

end Sim
